import Mathlib

/-!
Verification of the `O-C-R/auth` session store and token-bucket rate limiter
(`package session`, with the identifier type from `package id`).

The development shallowly embeds the Go code and the Lua token-bucket script:

* the Lua script `tokenBucket` becomes a pure function on the bucket's stored
  state (an optional pair of timestamp and token count); Lua numbers are
  idealised as exact rationals, and the script's abort path — for an existing
  bucket observed at `t1 ≤ t0` the `HMGET` result is still a Lua string when
  `bucket[2] > 0` is evaluated, raising a type-comparison error before
  anything is persisted — is modelled as an explicit error result;
* the redis store becomes a function from keys (`List Char`) to optional
  entries (a value together with an optional TTL), and each redis command the
  Go code issues (`GET`, `SETEX`, `SADD`, `EXPIRE`, `DEL`, `SREM`, `SMEMBERS`)
  becomes a state transformer; a connection is any function from commands to
  outcomes, so that command failures (transport, wrong type) can be modelled;
* the Go functions `Session`, `SetSession`, `DeleteSession`,
  `InvalidateSessions` and `RateLimitCount` become functions over an arbitrary
  connection, mirroring the source's command sequence and error checks;
* gob serialization (Go standard library, external to the repository) is a
  parameter: an encoder `π → List Char` and a partial decoder; group
  identifiers are modelled after `interfaceToString` normalisation, i.e. as
  strings;
* the error values the Go code can return are an inductive: `errNil` is
  redigo's `redis.ErrNil` (the absent-key error, the spec's `SessionNotFound`),
  `decodeErr` is a gob decoding failure (the spec's `CorruptSession`),
  `transport` stands for any network/auth/protocol failure of a command.
-/

namespace OCR

/-! ## Token bucket (the Lua script `tokenBucket`) -/

/-- The number of tokens available after the refill step of the script
(`bucket[2]` after lines 18–26, before the consume step), when that step
completes.  The stored state is `none` when the bucket key is absent (the
fields then default to timestamp `0` and tokens `tonumber(ARGV[2])`, both
Lua numbers).  For an existing bucket the fields come back from `HMGET` as
Lua STRINGS: when `ARGV[3] > bucket[1]` (for the equal-width decimal
timestamp strings the caller produces, the lexicographic comparison agrees
with the numeric one) the refill arithmetic coerces `bucket[2]` to a number;
otherwise — a non-positive interval, `t1 ≤ t0` — `bucket[2]` is still a
string when line 29 evaluates `bucket[2] > 0`, and Lua raises an
attempt-to-compare-string-with-number error, aborting the script.  That
aborted path is the `none` result. -/
def preTokens (rate cap t1 : ℚ) (st : Option (ℚ × ℚ)) : Option ℚ :=
  match st with
  | none => some cap
  | some (t0, b0) => if t0 < t1 then some (min cap (b0 + (t1 - t0) * rate)) else none

/-- Result of one completed execution of the token-bucket script: whether
the consume succeeded (`ok` return value), the persisted
`(timestamp, tokens)` pair, and the argument passed to `pexpire`
(milliseconds). -/
structure TBOut where
  allowed : Bool
  t : ℚ
  b : ℚ
  pexpireMs : ℤ
  deriving DecidableEq

/-- One execution of the Lua script on a bucket: refill, conditional consume
(`bucket[2] > 0`), persist `(ARGV[3], bucket[2])`, and
`pexpire(ceil((ARGV[2] - bucket[2]) / ARGV[1] / 1e3))`.  Timestamps are in
nanoseconds and `rate` in tokens per nanosecond, per the script's header
comment and the caller, which passes `time.Now().UnixNano()`.  The result is
`none` when the script aborts with the Lua type-comparison error (existing
bucket, `t1 ≤ t0`): the abort happens before `hmset`, so nothing is
persisted. -/
def tokenBucket (rate cap t1 : ℚ) (st : Option (ℚ × ℚ)) : Option TBOut :=
  match preTokens rate cap t1 st with
  | none => none
  | some b1 =>
      let b2 := if 0 < b1 then b1 - 1 else b1
      some { allowed := decide (0 < b1)
             t := t1
             b := b2
             pexpireMs := ⌈(cap - b2) / rate / 1000⌉ }

/-- Outcome of `RateLimitCount` as seen by the Go caller: a nil error
(allowed), `RateLimitExceededError` (the script completed and returned 0),
or the redis error carrying the script's Lua abort (surfaced by
`redis.Int`). -/
inductive RLOut where
  | allowed
  | rateLimitExceeded
  | scriptErr
  deriving DecidableEq

/-- `RateLimitCount`: run the script; a script error is returned as-is,
`ok = 0` becomes `RateLimitExceededError`, `ok = 1` becomes a nil error.
Also returns the stored bucket state after the call (unchanged on an abort)
and the `pexpire` argument when one was issued. -/
def RateLimitCount (rate cap t1 : ℚ) (st : Option (ℚ × ℚ)) :
    RLOut × Option (ℚ × ℚ) × Option ℤ :=
  match tokenBucket rate cap t1 st with
  | none => (.scriptErr, st, none)
  | some r =>
      (if r.allowed then .allowed else .rateLimitExceeded, some (r.t, r.b), some r.pexpireMs)

/-- The stored bucket state after a sequence of `Consume` calls observing
the given timestamps, starting from `st`; an aborted call persists nothing
and leaves the stored state unchanged. -/
def runBucket (rate cap : ℚ) : List ℚ → Option (ℚ × ℚ) → Option (ℚ × ℚ)
  | [], st => st
  | t1 :: ts, st =>
      runBucket rate cap ts
        (match tokenBucket rate cap t1 st with
         | none => st
         | some r => some (r.t, r.b))

/-! ## Key codec (`package id` and the key functions of `package session`)

An `id.ID` is a 20-byte value; `ID.String` hex-encodes it.  Keys are modelled
as `List Char`. -/

/-- Strings and byte blobs, as stored in redis. -/
abbrev Str := List Char

/-- One lowercase hex digit character, as produced by `encoding/hex`
(`0`–`9` then `a`–`f`). -/
def hexChar (n : Fin 16) : Char :=
  if n.val < 10 then Char.ofNat ('0'.toNat + n.val) else Char.ofNat ('a'.toNat + n.val - 10)

/-- Hex encoding of one byte: high nibble then low nibble
(`encoding/hex.Encode`). -/
def hexByte (b : Fin 256) : List Char :=
  [hexChar ⟨b.val / 16, by omega⟩, hexChar ⟨b.val % 16, by omega⟩]

/-- Hex encoding of a byte sequence. -/
def hexEncode : List (Fin 256) → List Char
  | [] => []
  | b :: bs => hexByte b ++ hexEncode bs

/-- An `id.ID`: a fixed 20-byte value. -/
abbrev ID := { l : List (Fin 256) // l.length = 20 }

/-- `ID.String()`: the 40-character hex encoding. -/
def idString (i : ID) : Str := hexEncode i.val

/-- `sessionKey`: `"s" + sessionID.String()`. -/
def sessionKey (sessionID : ID) : Str := 's' :: idString sessionID

/-- `sessionToGroupKey`: `"z" + sessionID.String()`. -/
def sessionToGroupKey (sessionID : ID) : Str := 'z' :: idString sessionID

/-- `groupKey`: `"g" + groupId`. -/
def groupKey (groupId : Str) : Str := 'g' :: groupId

/-- `rateLimitKey`: `"b" + client`. -/
def rateLimitKey (client : Str) : Str := 'b' :: client

/-! ## The redis store -/

/-- A stored redis value: a string (bulk value) or a set of strings.  A set
is represented as a duplicate-free list (members in insertion order; redis
sets are unordered, and nothing in the development depends on the order).
(The token bucket's hash lives under its own `"b"`-prefixed key and is
modelled separately above.) -/
inductive RVal where
  | str (s : Str)
  | rset (ms : List Str)

/-- Set insertion for `SADD`: append each member not already present. -/
def saddList (s ms : List Str) : List Str :=
  ms.foldl (fun acc m => if m ∈ acc then acc else acc ++ [m]) s

/-- A key's entry: its value and optional time-to-live (`none` = no expiry). -/
abbrev Entry := RVal × Option ℤ

/-- The redis database: a map from keys to entries. -/
abbrev St := Str → Option Entry

/-- The empty database. -/
def emptySt : St := fun _ => none

/-- Point update of the database. -/
def upd (st : St) (k : Str) (e : Option Entry) : St :=
  fun k2 => if k2 = k then e else st k2

/-- Replies of the redis commands the Go code issues. -/
inductive Reply where
  | nil
  | bulk (s : Str)
  | num (n : ℤ)
  | okSimple
  | arr (xs : List Str)

/-- Errors a call can return: `errNil` is redigo's `redis.ErrNil` (absent
key — the spec's `SessionNotFound`), `decodeErr` is a gob decoding failure
(the spec's `CorruptSession`), `wrongType` is redis's WRONGTYPE error,
`invalidExpire` is redis's error for `SETEX` with a non-positive TTL, and
`transport` stands for a network/auth/protocol failure of a command. -/
inductive Err where
  | errNil
  | decodeErr
  | wrongType
  | invalidExpire
  | transport
  deriving DecidableEq

/-- The redis commands issued by the session store. -/
inductive Cmd where
  | get (k : Str)
  | setex (k : Str) (ttl : ℤ) (v : Str)
  | sadd (k : Str) (ms : List Str)
  | expire (k : Str) (ttl : ℤ)
  | del (ks : List Str)
  | srem (k : Str) (ms : List Str)
  | smembers (k : Str)

/-- A connection: maps a command and the current database to a failure or a
reply plus the new database.  The Go code is written against an arbitrary
connection from the pool; modelling it as a parameter lets command failures
be expressed. -/
abbrev Conn := Cmd → St → Except Err (Reply × St)

/-- The faultless connection: the reference semantics of the redis commands.
`GET` of an absent key replies nil; `SETEX` requires a positive TTL; `SADD`
on an absent key creates the set (no TTL); `EXPIRE` of an absent key replies
`0`; `DEL` removes every listed key; `SREM` deletes the key when the set
becomes empty; `SMEMBERS` of an absent key replies the empty array. -/
def goodConn : Conn
  | .get k, st =>
      match st k with
      | none => .ok (.nil, st)
      | some (.str s, _) => .ok (.bulk s, st)
      | some (.rset _, _) => .error .wrongType
  | .setex k ttl v, st =>
      if ttl ≤ 0 then .error .invalidExpire
      else .ok (.okSimple, upd st k (some (.str v, some ttl)))
  | .sadd k ms, st =>
      match st k with
      | none => .ok (.num (saddList [] ms).length, upd st k (some (.rset (saddList [] ms), none)))
      | some (.rset s, ttl) =>
          .ok (.num ((saddList s ms).length - s.length), upd st k (some (.rset (saddList s ms), ttl)))
      | some (.str _, _) => .error .wrongType
  | .expire k ttl, st =>
      match st k with
      | none => .ok (.num 0, st)
      | some (v, _) => .ok (.num 1, upd st k (some (v, some ttl)))
  | .del ks, st =>
      .ok (.num (ks.filter (fun k => (st k).isSome)).length,
           fun k2 => if k2 ∈ ks then none else st k2)
  | .srem k ms, st =>
      match st k with
      | none => .ok (.num 0, st)
      | some (.rset s, ttl) =>
          let s2 := s.filter (fun m => m ∉ ms)
          .ok (.num ((s.length : ℤ) - s2.length),
               upd st k (if s2 = [] then none else some (.rset s2, ttl)))
      | some (.str _, _) => .error .wrongType
  | .smembers k, st =>
      match st k with
      | none => .ok (.arr [], st)
      | some (.rset s, _) => .ok (.arr s, st)
      | some (.str _, _) => .error .wrongType

/-- `redis.Bytes` / `redis.String`: pass errors through; a nil reply becomes
`redis.ErrNil`; a bulk reply yields its string. -/
def redisBulk : Except Err (Reply × St) → Except Err (Str × St)
  | .error e => .error e
  | .ok (.nil, _) => .error .errNil
  | .ok (.bulk s, st) => .ok (s, st)
  | .ok (_, _) => .error .wrongType

/-- `redis.Strings`: pass errors through; an array reply yields its strings. -/
def redisArr : Except Err (Reply × St) → Except Err (List Str × St)
  | .error e => .error e
  | .ok (.arr xs, st) => .ok (xs, st)
  | .ok (_, _) => .error .wrongType

/-! ## The session store operations

`π` is the payload type; `enc`/`dec` model gob encoding and decoding (the Go
standard library's `encoding/gob`, external to this repository).  Group
identifiers are modelled after `interfaceToString` normalisation, i.e. as the
resulting strings; `SetSession`'s `groupId` is `none` when the Go caller
passes `nil`. -/

/-- `SessionStore.Session`: `GET` the session key through `redis.Bytes`, then
gob-decode the payload. -/
def Session {π : Type} (dec : Str → Option π) (conn : Conn) (sessionID : ID) (st : St) :
    Except Err (π × St) :=
  match redisBulk (conn (.get (sessionKey sessionID)) st) with
  | .error e => .error e
  | .ok (s, st1) =>
      match dec s with
      | none => .error .decodeErr
      | some p => .ok (p, st1)

/-- `SessionStore.SetSession`: gob-encode the payload, `SETEX` the session
key with the configured session duration, and — when a group identifier is
supplied — `SETEX` the session-to-group pointer, `SADD` both keys to the
group set, and `EXPIRE` the group key. -/
def SetSession {π : Type} (enc : π → Str) (dur : ℤ) (conn : Conn) (sessionID : ID)
    (groupId : Option Str) (payload : π) (st : St) : Except Err St :=
  let sKey := sessionKey sessionID
  match conn (.setex sKey dur (enc payload)) st with
  | .error e => .error e
  | .ok (_, st1) =>
      match groupId with
      | none => .ok st1
      | some g =>
          let gKey := groupKey g
          let sgKey := sessionToGroupKey sessionID
          match conn (.setex sgKey dur g) st1 with
          | .error e => .error e
          | .ok (_, st2) =>
              match conn (.sadd gKey [sKey, sgKey]) st2 with
              | .error e => .error e
              | .ok (_, st3) =>
                  match conn (.expire gKey dur) st3 with
                  | .error e => .error e
                  | .ok (_, st4) => .ok st4

/-- `SessionStore.DeleteSession`: `DEL` the session key; then `GET` the
session-to-group pointer through `redis.String`, and only when that read
returns no error, `DEL` the pointer and `SREM` both keys from the group set.
A failing pointer read (absent key or any other failure) skips the cleanup
and the call returns nil. -/
def DeleteSession (conn : Conn) (sessionID : ID) (st : St) : Except Err St :=
  let sKey := sessionKey sessionID
  match conn (.del [sKey]) st with
  | .error e => .error e
  | .ok (_, st1) =>
      let sgKey := sessionToGroupKey sessionID
      match redisBulk (conn (.get sgKey) st1) with
      | .error _ => .ok st1
      | .ok (g, st2) =>
          match conn (.del [sgKey]) st2 with
          | .error e => .error e
          | .ok (_, st3) =>
              match conn (.srem (groupKey g) [sKey, sgKey]) st3 with
              | .error e => .error e
              | .ok (_, st4) => .ok st4

/-- `SessionStore.InvalidateSessions`: `SMEMBERS` the group set through
`redis.Strings`, then one `DEL` of the group key and every member key. -/
def InvalidateSessions (conn : Conn) (g : Str) (st : St) : Except Err St :=
  let gKey := groupKey g
  match redisArr (conn (.smembers gKey) st) with
  | .error e => .error e
  | .ok (members, st1) =>
      match conn (.del (gKey :: members)) st1 with
      | .error e => .error e
      | .ok (_, st2) => .ok st2

/-! ## Concrete instances used by witnesses and evaluations

A simple gob-style codec on natural numbers (`decX` fails on any string
holding a character other than `x`, standing for an undecodable payload),
concrete session identifiers, and adversarial connections. -/

/-- A concrete payload encoder for witnesses. -/
def encX (n : ℕ) : Str := List.replicate n 'x'

/-- The matching decoder; fails on any string that `encX` cannot produce. -/
def decX (s : Str) : Option ℕ := if s.all (fun c => c = 'x') then some s.length else none

/-- A concrete session ID whose first byte is `b` and whose other 19 bytes
are zero. -/
def mkSid (b : Fin 256) : ID := ⟨b :: List.replicate 19 0, by simp⟩

/-- A concrete session ID. -/
def sid0 : ID := mkSid 0

/-- A second, distinct concrete session ID. -/
def sid1 : ID := mkSid 1

/-- A connection on which every command fails with a transport error. -/
def failConn : Conn := fun _ _ => .error .transport

/-- A connection that behaves like `goodConn` except that reading any
session-to-group pointer key (prefix `z`) fails with a transport error. -/
def badPtrConn : Conn
  | .get k, st => if k.head? = some 'z' then .error .transport else goodConn (.get k) st
  | c, st => goodConn c st

/-- Whether a store call returned without error (a nil Go error). -/
def isOk : Except Err St → Bool
  | .ok _ => true
  | .error _ => false

/-- Ten distinct concrete session IDs. -/
def sids10 : List ID :=
  [mkSid 0, mkSid 1, mkSid 2, mkSid 3, mkSid 4, mkSid 5, mkSid 6, mkSid 7, mkSid 8, mkSid 9]

/-- `SetSession` for each ID in turn, all into the group `"u"`, stopping at
the first error (the test scenario of `TestCappedSessions`). -/
def setMany : List ID → St → Except Err St
  | [], st => .ok st
  | i :: is, st =>
      match SetSession encX 1 goodConn i (some ['u']) 2 st with
      | .error e => .error e
      | .ok st2 => setMany is st2

/-- The database after inserting the ten sessions of `sids10` into one group
starting from the empty database. -/
def st10 : St :=
  match setMany sids10 emptySt with
  | .ok s => s
  | .error _ => emptySt

/-- The number of members of a group's membership set. -/
def groupCount (st : St) (g : Str) : ℕ :=
  match st (groupKey g) with
  | some (.rset s, _) => s.length
  | _ => 0

/-! ## Helper lemmas -/

lemma hcodecX (n : ℕ) : decX (encX n) = some n := by
  simp [encX, decX, List.all_eq_true, List.mem_replicate]

lemma hexChar_inj : ∀ x y : Fin 16, hexChar x = hexChar y → x = y := by decide

lemma hexByte_inj : ∀ x y : Fin 256, hexByte x = hexByte y → x = y := by
  intro x y h
  simp only [hexByte, List.cons.injEq, and_true] at h
  obtain ⟨h1, h2⟩ := h
  have e1 := hexChar_inj _ _ h1
  have e2 := hexChar_inj _ _ h2
  have d1 : x.val / 16 = y.val / 16 := congrArg Fin.val e1
  have d2 : x.val % 16 = y.val % 16 := congrArg Fin.val e2
  have : x.val = y.val := by omega
  exact Fin.ext this

lemma hexEncode_inj : ∀ xs ys : List (Fin 256), hexEncode xs = hexEncode ys → xs = ys := by
  intro xs
  induction xs with
  | nil =>
    intro ys h
    cases ys with
    | nil => rfl
    | cons b bs => simp [hexEncode, hexByte] at h
  | cons a as ih =>
    intro ys h
    cases ys with
    | nil => simp [hexEncode, hexByte] at h
    | cons b bs =>
      simp only [hexEncode] at h
      obtain ⟨h1, h2⟩ := List.append_inj h (by simp [hexByte])
      rw [hexByte_inj _ _ h1, ih bs h2]

lemma sessionKey_inj : Function.Injective sessionKey := by
  intro a b h
  simp only [sessionKey, List.cons.injEq, true_and, idString] at h
  exact Subtype.ext (hexEncode_inj _ _ h)

lemma sessionKey_ne_sgKey (a b : ID) : sessionKey a ≠ sessionToGroupKey b := by
  intro h
  injection h with h1 _
  exact absurd h1 (by decide)

lemma sessionKey_ne_groupKey (a : ID) (g : Str) : sessionKey a ≠ groupKey g := by
  intro h
  injection h with h1 _
  exact absurd h1 (by decide)

lemma sgKey_ne_groupKey (a : ID) (g : Str) : sessionToGroupKey a ≠ groupKey g := by
  intro h
  injection h with h1 _
  exact absurd h1 (by decide)

lemma upd_self (st : St) (k : Str) (e : Option Entry) : upd st k e k = e := by simp [upd]

lemma upd_ne (st : St) (k : Str) (e : Option Entry) (k2 : Str) (h : k2 ≠ k) :
    upd st k e k2 = st k2 := by simp [upd, h]

/-- The completed refill step stays in `(-1, capacity]`: starting from an
absent bucket or a state whose token count lies in `(-1, capacity]`, a
completed script execution persists a count in `(-1, capacity]` (for a
nonnegative rate and capacity). -/
lemma tb_step_good (rate cap : ℚ) (hr : 0 ≤ rate) (hc : 0 ≤ cap) (t1 : ℚ)
    (st : Option (ℚ × ℚ)) (h : ∀ s, st = some s → -1 < s.2 ∧ s.2 ≤ cap) :
    ∀ r, tokenBucket rate cap t1 st = some r → -1 < r.b ∧ r.b ≤ cap := by
  intro r hr2
  have hb1 : ∀ b1, preTokens rate cap t1 st = some b1 → -1 < b1 ∧ b1 ≤ cap := by
    intro b1 hb
    match st with
    | none =>
      simp only [preTokens, Option.some.injEq] at hb
      constructor <;> linarith [hb]
    | some (t0, b0) =>
      obtain ⟨h1, h2⟩ := h (t0, b0) rfl
      simp only [preTokens] at hb
      split at hb
      · next hlt =>
        obtain rfl : min cap (b0 + (t1 - t0) * rate) = b1 := Option.some_injective _ hb
        constructor
        · apply lt_min (by linarith)
          nlinarith [mul_nonneg (by linarith : (0:ℚ) ≤ t1 - t0) hr]
        · exact min_le_left _ _
      · exact absurd hb (by simp)
  simp only [tokenBucket] at hr2
  rcases hp : preTokens rate cap t1 st with _ | b1
  · rw [hp] at hr2; exact absurd hr2 (by simp)
  · rw [hp] at hr2
    simp only [Option.some.injEq] at hr2
    obtain ⟨hg1, hg2⟩ := hb1 b1 hp
    subst hr2
    simp only
    split
    · constructor <;> linarith
    · exact ⟨hg1, hg2⟩

/-- The interval invariant holds along any sequence of calls: a completed
call persists a good count, an aborted call persists nothing. -/
lemma runBucket_good (rate cap : ℚ) (hr : 0 ≤ rate) (hc : 0 ≤ cap) :
    ∀ (ts : List ℚ) (st : Option (ℚ × ℚ)),
      (∀ s, st = some s → -1 < s.2 ∧ s.2 ≤ cap) →
      ∀ s2, runBucket rate cap ts st = some s2 → -1 < s2.2 ∧ s2.2 ≤ cap := by
  intro ts
  induction ts with
  | nil => intro st h s2 h2; exact h s2 h2
  | cons t1 ts ih =>
    intro st h s2 h2
    simp only [runBucket] at h2
    rcases htb : tokenBucket rate cap t1 st with _ | r
    · rw [htb] at h2
      exact ih st h s2 h2
    · rw [htb] at h2
      refine ih _ ?_ s2 h2
      rintro s rfl2
      obtain rfl : s = (r.t, r.b) := Option.some_injective _ rfl2.symm
      exact tb_step_good rate cap hr hc t1 st h r htb

/-- Characterisation of a successful `SetSession` over the faultless
connection: the session key holds the encoded payload with the session TTL,
and every key other than the session key, the pointer key and the group key
is unchanged. -/
lemma setSession_good {π : Type} (enc : π → Str) (dur : ℤ) (sid : ID) (g : Option Str)
    (p : π) (st st2 : St) (hset : SetSession enc dur goodConn sid g p st = .ok st2) :
    st2 (sessionKey sid) = some (.str (enc p), some dur)
    ∧ ∀ k, k ≠ sessionKey sid → k ≠ sessionToGroupKey sid →
        (∀ gg, g = some gg → k ≠ groupKey gg) → st2 k = st k := by
  by_cases hdur : dur ≤ 0
  · simp [SetSession, goodConn, hdur] at hset
  simp only [SetSession, goodConn, if_neg hdur] at hset
  match g with
  | none =>
    simp only [Except.ok.injEq] at hset
    subst hset
    refine ⟨upd_self _ _ _, ?_⟩
    intro k hk _ _
    exact upd_ne _ _ _ _ hk
  | some gg =>
    simp only [if_neg hdur] at hset
    rw [show (upd (upd st (sessionKey sid) (some (.str (enc p), some dur)))
          (sessionToGroupKey sid) (some (.str gg, some dur))) (groupKey gg)
        = st (groupKey gg) by
      rw [upd_ne _ _ _ _ (Ne.symm (sgKey_ne_groupKey sid gg)),
          upd_ne _ _ _ _ (Ne.symm (sessionKey_ne_groupKey sid gg))]] at hset
    rcases hg : st (groupKey gg) with _ | ⟨v, ttl⟩
    · rw [hg] at hset
      simp only [upd_self, Except.ok.injEq] at hset
      subst hset
      constructor
      · rw [upd_ne _ _ _ _ (sessionKey_ne_groupKey sid gg),
            upd_ne _ _ _ _ (sessionKey_ne_groupKey sid gg),
            upd_ne _ _ _ _ (sessionKey_ne_sgKey sid sid), upd_self]
      · intro k hk1 hk2 hk3
        rw [upd_ne _ _ _ _ (hk3 gg rfl), upd_ne _ _ _ _ (hk3 gg rfl),
            upd_ne _ _ _ _ hk2, upd_ne _ _ _ _ hk1]
    · rcases v with s | ms
      · rw [hg] at hset
        simp at hset
      · rw [hg] at hset
        simp only [upd_self, Except.ok.injEq] at hset
        subst hset
        constructor
        · rw [upd_ne _ _ _ _ (sessionKey_ne_groupKey sid gg),
              upd_ne _ _ _ _ (sessionKey_ne_groupKey sid gg),
              upd_ne _ _ _ _ (sessionKey_ne_sgKey sid sid), upd_self]
        · intro k hk1 hk2 hk3
          rw [upd_ne _ _ _ _ (hk3 gg rfl), upd_ne _ _ _ _ (hk3 gg rfl),
              upd_ne _ _ _ _ hk2, upd_ne _ _ _ _ hk1]

/-- `DeleteSession` over the faultless connection when the session-to-group
pointer key is absent: only the session key is deleted and the call returns
without error. -/
lemma deleteSession_noPtr (sid : ID) (st : St) (hp : st (sessionToGroupKey sid) = none) :
    DeleteSession goodConn sid st
      = .ok (fun k => if k ∈ [sessionKey sid] then none else st k) := by
  have hnm : sessionToGroupKey sid ∉ [sessionKey sid] := by
    simp [Ne.symm (sessionKey_ne_sgKey sid sid)]
  have h1 : (if sessionToGroupKey sid ∈ [sessionKey sid] then (none : Option Entry)
      else st (sessionToGroupKey sid)) = none := by
    rw [if_neg hnm, hp]
  simp only [DeleteSession, goodConn, redisBulk, h1]

/-! ## The claims -/

/-- C1, counterexample: the stored token count does NOT always stay in
`[0, capacity]`.  With `rate = 1/2` and `capacity = 1`, a fresh bucket
consumed at times `0` and `1` ends with a stored count of `-1/2`: the second
call refills only half a token, the consume test `bucket[2] > 0` still
passes, and one whole token is subtracted. -/
theorem claim1_cex :
    runBucket (1/2) 1 [0, 1] none = some (1, -(1/2)) ∧ ¬ (0 ≤ (-(1/2) : ℚ)) :=
  ⟨by norm_num [runBucket, tokenBucket, preTokens], by norm_num⟩

/-- C1, amended: for every bucket and every sequence of `Consume`
(`RateLimitCount`) calls with fixed nonnegative rate and capacity, the stored
token count stays in the interval `(-1, capacity]` (the lower bound `0` of
the claim fails, by `claim1_cex`); a completed successful call persists the
post-refill count decreased by exactly 1, a completed denied call persists it
unchanged (and an aborted call persists nothing), and the count increases
over its stored value only via the elapsed-time-proportional refill
`min(capacity, b0 + (t1 - t0) * rate)`, which applies only when `t1 > t0`. -/
theorem claim1_amended (rate cap : ℚ) (hr : 0 ≤ rate) (hc : 0 ≤ cap) :
    (∀ (ts : List ℚ) (s : ℚ × ℚ), runBucket rate cap ts none = some s → -1 < s.2 ∧ s.2 ≤ cap)
    ∧ (∀ t1 st r b1, tokenBucket rate cap t1 st = some r →
        preTokens rate cap t1 st = some b1 →
        (r.allowed = true → r.b = b1 - 1) ∧ (r.allowed = false → r.b = b1))
    ∧ (∀ t1 t0 b0 b1, preTokens rate cap t1 (some (t0, b0)) = some b1 → b0 < b1 →
        t0 < t1 ∧ b1 = min cap (b0 + (t1 - t0) * rate)) := by
  refine ⟨?_, ?_, ?_⟩
  · intro ts s h
    exact runBucket_good rate cap hr hc ts none (by simp) s h
  · intro t1 st r b1 htb hpre
    simp only [tokenBucket, hpre, Option.some.injEq] at htb
    subst htb
    by_cases hpos : 0 < b1
    · simp [hpos]
    · simp [hpos]
  · intro t1 t0 b0 b1 hpre h
    simp only [preTokens] at hpre
    split at hpre
    · next hlt =>
      have he := Option.some_injective _ hpre
      exact ⟨hlt, he.symm⟩
    · exact absurd hpre (by simp)

/-- C1, witness for the amended theorem at `rate = 1`, `capacity = 1`. -/
theorem claim1_amended_witness :
    (∀ (ts : List ℚ) (s : ℚ × ℚ), runBucket 1 1 ts none = some s → -1 < s.2 ∧ s.2 ≤ 1)
    ∧ (∀ t1 st r b1, tokenBucket 1 1 t1 st = some r →
        preTokens 1 1 t1 st = some b1 →
        (r.allowed = true → r.b = b1 - 1) ∧ (r.allowed = false → r.b = b1))
    ∧ (∀ t1 t0 b0 b1, preTokens 1 1 t1 (some (t0, b0)) = some b1 → b0 < b1 →
        t0 < t1 ∧ b1 = min 1 (b0 + (t1 - t0) * 1)) :=
  claim1_amended 1 1 (by norm_num) (by norm_num)

/-- C2, counterexample: with `capacity = 1` and `rate = 1`, a fresh
client's first `Consume` (`RateLimitCount`) is allowed, but the immediate
second call — observing the same timestamp — does NOT fail with
`RateLimitExceeded`: on that path the script's `bucket[2] > 0` compares the
`HMGET` string with a number, Lua aborts, and the caller receives the
script error. -/
theorem claim2_cex :
    (RateLimitCount 1 1 0 none).1 = .allowed
    ∧ (RateLimitCount 1 1 0 (RateLimitCount 1 1 0 none).2.1).1 = .scriptErr
    ∧ RLOut.scriptErr ≠ RLOut.rateLimitExceeded := by
  refine ⟨?_, ?_, by simp⟩ <;> norm_num [RateLimitCount, tokenBucket, preTokens]

/-- C2, amended: with `capacity = 1`, a fresh client's first `Consume`
(`RateLimitCount`) is allowed.  An immediate second call never returns
`RateLimitExceeded`: at the same observed timestamp the script aborts with
the Lua type-comparison error (surfaced as a script error, nothing
persisted), and at any strictly later timestamp the fractional refill makes
the call allowed.  After waiting at least `1/rate` a further call is
allowed.  In general, a call returns `RateLimitExceeded` exactly when the
script completes with post-refill token count at most `0`, and nil exactly
when it completes with one token consumed. -/
theorem claim2_amended (rate t1 t3 : ℚ) (hr : 0 < rate) (h31 : 1/rate ≤ t3 - t1) :
    (RateLimitCount rate 1 t1 none).1 = .allowed
    ∧ (RateLimitCount rate 1 t1 (RateLimitCount rate 1 t1 none).2.1).1 = .scriptErr
    ∧ (RateLimitCount rate 1 t1 (RateLimitCount rate 1 t1 none).2.1).2.1
        = (RateLimitCount rate 1 t1 none).2.1
    ∧ (∀ t2, t1 < t2 →
        (RateLimitCount rate 1 t2 (RateLimitCount rate 1 t1 none).2.1).1 = .allowed)
    ∧ (RateLimitCount rate 1 t3 (RateLimitCount rate 1 t1 none).2.1).1 = .allowed
    ∧ (∀ cap t st b1, preTokens rate cap t st = some b1 →
        ((RateLimitCount rate cap t st).1 = .rateLimitExceeded ↔ b1 ≤ 0))
    ∧ (∀ cap t st b1, preTokens rate cap t st = some b1 →
        ((RateLimitCount rate cap t st).1 = .allowed ↔
          (RateLimitCount rate cap t st).2.1 = some (t, b1 - 1))) := by
  have hfirst : RateLimitCount rate 1 t1 none
      = (.allowed, some (t1, 0), some ⌈(1 : ℚ) / rate / 1000⌉) := by
    norm_num [RateLimitCount, tokenBucket, preTokens]
  have hlater : ∀ t2, t1 < t2 →
      (RateLimitCount rate 1 t2 (some (t1, 0))).1 = .allowed := by
    intro t2 ht
    have hpos : 0 < min (1:ℚ) (0 + (t2 - t1) * rate) := by
      apply lt_min one_pos
      have : 0 < (t2 - t1) * rate := mul_pos (by linarith) hr
      linarith
    simp [RateLimitCount, tokenBucket, preTokens, ht, hpos]
    exact hr
  refine ⟨by rw [hfirst], ?_, ?_, ?_, ?_, ?_, ?_⟩
  · rw [hfirst]
    simp [RateLimitCount, tokenBucket, preTokens]
  · rw [hfirst]
    simp [RateLimitCount, tokenBucket, preTokens]
  · intro t2 ht
    rw [hfirst]
    exact hlater t2 ht
  · rw [hfirst]
    refine hlater t3 ?_
    have : 0 < 1/rate := by positivity
    linarith
  · intro cap t st b1 hpre
    simp only [RateLimitCount, tokenBucket, hpre]
    by_cases hpos : 0 < b1
    · simp only [decide_eq_true hpos, if_true]
      constructor
      · intro h
        exact absurd h (by simp)
      · intro h
        linarith
    · simp only [decide_eq_false hpos, Bool.false_eq_true, if_false]
      constructor
      · intro h
        linarith [not_lt.mp hpos]
      · intro h
        simp
  · intro cap t st b1 hpre
    simp only [RateLimitCount, tokenBucket, hpre]
    by_cases hpos : 0 < b1
    · simp [hpos]
    · simp only [decide_eq_false hpos, Bool.false_eq_true, if_false, if_neg hpos]
      constructor
      · intro h
        exact absurd h (by simp)
      · intro h
        simp only [Option.some.injEq, Prod.mk.injEq] at h
        linarith [h.2]

/-- C2, witness for the amended theorem at `rate = 1`, `t1 = 0`, `t3 = 1`. -/
theorem claim2_amended_witness :
    (RateLimitCount 1 1 0 none).1 = .allowed
    ∧ (RateLimitCount 1 1 0 (RateLimitCount 1 1 0 none).2.1).1 = .scriptErr
    ∧ (RateLimitCount 1 1 0 (RateLimitCount 1 1 0 none).2.1).2.1
        = (RateLimitCount 1 1 0 none).2.1
    ∧ (∀ t2, (0:ℚ) < t2 →
        (RateLimitCount 1 1 t2 (RateLimitCount 1 1 0 none).2.1).1 = .allowed)
    ∧ (RateLimitCount 1 1 1 (RateLimitCount 1 1 0 none).2.1).1 = .allowed
    ∧ (∀ cap t st b1, preTokens 1 cap t st = some b1 →
        ((RateLimitCount 1 cap t st).1 = .rateLimitExceeded ↔ b1 ≤ 0))
    ∧ (∀ cap t st b1, preTokens 1 cap t st = some b1 →
        ((RateLimitCount 1 cap t st).1 = .allowed ↔
          (RateLimitCount 1 cap t st).2.1 = some (t, b1 - 1))) :=
  claim2_amended 1 0 1 (by norm_num) (by norm_num)

/-- C3, code bug: the script's `pexpire` argument is
`ceil((capacity - b1) / rate / 1e3)`, which converts the nanosecond refill
time to MICROseconds, while `pexpire` takes milliseconds, so the key's
expiry is 1000 times the time needed to refill.  At rate `10⁻⁹` tokens per
nanosecond (1 token/second) and capacity 1, a fresh consume persists `b = 0`
and sets the expiry to `1000000` ms (1000 s), while the refill time is
`10⁹` ns = `1000` ms. -/
theorem claim3_expiry_bug :
    tokenBucket (1/1000000000) 1 0 none
      = some { allowed := true, t := 0, b := 0, pexpireMs := 1000000 }
    ∧ ⌈((1:ℚ) - 0) / (1/1000000000) / 1000000⌉ = 1000
    ∧ (1000000 : ℤ) ≠ 1000 := by
  refine ⟨?_, by norm_num, by norm_num⟩
  norm_num [tokenBucket, preTokens]

/-- C4, code bug: the claim (and the spec's clock guard, `else b1 = b0` —
never refill or drain on a non-positive interval) says a `Consume` observing
`t1 ≤ t0` proceeds with the token count unchanged; the code instead aborts.
On that path the script never applies `tonumber` to the `HMGET` fields (it
does for the fresh-bucket default, line 23), so `bucket[2] > 0` compares a
string with a number, Lua raises an error, nothing is persisted, and the
caller receives the script error — neither nil nor `RateLimitExceeded`.
Evaluating the code at a failing input, a stored bucket `(t0, b0) = (0, 1)`
consumed at `t1 = 0` with rate and capacity 1: the refill step yields no
count, the script aborts, and the stored state is returned unchanged. -/
theorem claim4_err_eval :
    preTokens 1 1 0 (some (0, 1)) = none
    ∧ tokenBucket 1 1 0 (some (0, 1)) = none
    ∧ RateLimitCount 1 1 0 (some (0, 1)) = (.scriptErr, some (0, 1), none)
    ∧ RLOut.scriptErr ≠ .allowed ∧ RLOut.scriptErr ≠ .rateLimitExceeded := by
  refine ⟨?_, ?_, ?_, by simp, by simp⟩ <;> norm_num [RateLimitCount, tokenBucket, preTokens]

/-- C5: round-trip — for every session ID and payload whose codec
round-trips, a successful `SetSession` followed by `Session` on the same ID
(over the faultless connection, with no intervening delete or expiry)
succeeds and yields a value equal to the payload. -/
theorem claim5 {π : Type} (enc : π → Str) (dec : Str → Option π) (p : π)
    (hcodec : dec (enc p) = some p) (dur : ℤ) (sid : ID) (g : Option Str) (st st2 : St)
    (hset : SetSession enc dur goodConn sid g p st = .ok st2) :
    Session dec goodConn sid st2 = .ok (p, st2) := by
  have h := (setSession_good enc dur sid g p st st2 hset).1
  simp only [Session, goodConn, h, redisBulk, hcodec]

/-- C5, witness with the concrete codec at payload `2`. -/
theorem claim5_witness :
    Session decX goodConn sid0 (upd emptySt (sessionKey sid0) (some (.str (encX 2), some 1)))
      = .ok (2, upd emptySt (sessionKey sid0) (some (.str (encX 2), some 1))) :=
  claim5 encX decX 2 (hcodecX 2) 1 sid0 none emptySt _ rfl

/-- C6: `Session` fails with `redis.ErrNil` (the spec's `SessionNotFound`)
whenever the session key is absent — in particular for any two distinct IDs
`a ≠ b`, after `SetSession(a, ...)` a lookup of `b` so fails — and fails
with the distinct decoding error (the spec's `CorruptSession`) when the key
is present but its payload cannot be decoded; the two errors are
distinguishable. -/
theorem claim6 {π : Type} (dec : Str → Option π) (enc : π → Str) :
    (∀ (sid : ID) (st : St), st (sessionKey sid) = none →
        Session dec goodConn sid st = .error .errNil)
    ∧ (∀ (dur : ℤ) (a b : ID) (g : Option Str) (p : π) (st st2 : St), a ≠ b →
        st (sessionKey b) = none → SetSession enc dur goodConn a g p st = .ok st2 →
        Session dec goodConn b st2 = .error .errNil)
    ∧ (∀ (sid : ID) (st : St) (s : Str) (ttl : Option ℤ),
        st (sessionKey sid) = some (.str s, ttl) → dec s = none →
        Session dec goodConn sid st = .error .decodeErr)
    ∧ Err.errNil ≠ Err.decodeErr := by
  have habsent : ∀ (sid : ID) (st : St), st (sessionKey sid) = none →
      Session dec goodConn sid st = .error .errNil := by
    intro sid st h
    simp only [Session, goodConn, h, redisBulk]
  refine ⟨habsent, ?_, ?_, by simp⟩
  · intro dur a b g p st st2 hab hb hset
    have hframe := (setSession_good enc dur a g p st st2 hset).2 (sessionKey b)
      (fun h => hab (sessionKey_inj h).symm)
      (sessionKey_ne_sgKey b a)
      (fun gg _ => sessionKey_ne_groupKey b gg)
    exact habsent b st2 (hframe.trans hb)
  · intro sid st s ttl h hdec
    simp only [Session, goodConn, h, redisBulk, hdec]

/-- C6, witness: an absent key, a corrupt payload, and a lookup of a second
ID after `SetSession` of a first. -/
theorem claim6_witness :
    Session decX goodConn sid0 emptySt = .error .errNil
    ∧ Session decX goodConn sid0 (upd emptySt (sessionKey sid0) (some (.str ['q'], none)))
        = .error .decodeErr
    ∧ Session decX goodConn sid1 (upd emptySt (sessionKey sid0) (some (.str (encX 2), some 1)))
        = .error .errNil :=
  ⟨(claim6 decX encX).1 sid0 emptySt rfl,
   (claim6 decX encX).2.2.1 sid0 _ ['q'] none (upd_self _ _ _) rfl,
   (claim6 decX encX).2.1 1 sid0 sid1 none 2 emptySt _ (by decide) rfl rfl⟩

/-- C7, code bug: the code has no max-sessions-per-group cap at all —
`SessionStoreOptions` has no such field and `SetSession` adds to an
unordered set (`SADD`) without any eviction — although the repository's own
test (`TestCappedSessions`, with `MaxSessions: 5` and `ZRANGE`) inserts 10
sessions and expects the group to hold exactly 5.  Evaluating the code:
after inserting the 10 sessions of `sids10` into one group, the group's
membership set holds all 20 member keys (a session key and a pointer key
per session) and all 10 session keys are still present. -/
theorem claim7_eval :
    groupCount st10 ['u'] = 20
    ∧ groupCount st10 ['u'] ≠ 5
    ∧ sids10.all (fun i => (st10 (sessionKey i)).isSome) = true := by
  refine ⟨by decide, by decide, by decide⟩

/-- C8, counterexample: a failing read of the session-to-group pointer
during `DeleteSession` is NOT surfaced.  On a connection whose pointer-key
`GET` fails with a transport error, `DeleteSession` still returns without
error (the code only checks `err == nil` to decide whether to do group
cleanup and returns nil either way). -/
theorem claim8_cex :
    badPtrConn (.get (sessionToGroupKey sid0)) emptySt = .error .transport
    ∧ isOk (DeleteSession badPtrConn sid0 emptySt) = true :=
  ⟨rfl, rfl⟩

/-- C8, amended: every store-command failure during `Session`, `SetSession`
and `InvalidateSessions` is surfaced to the caller, as are failures of the
`DEL` and `SREM` commands of `DeleteSession`; the one exception is the
session-to-group pointer `GET` in `DeleteSession`, whose failure (from
absence or any other cause, transport included) is swallowed: the group
cleanup is skipped and the call returns no error. -/
theorem claim8_amended {π : Type} (dec : Str → Option π) (enc : π → Str) (conn : Conn)
    (e : Err) (dur : ℤ) (sid : ID) (p : π) (gg g : Str) (st : St) :
    (conn (.get (sessionKey sid)) st = .error e → Session dec conn sid st = .error e)
    ∧ (conn (.setex (sessionKey sid) dur (enc p)) st = .error e →
        SetSession enc dur conn sid (some gg) p st = .error e)
    ∧ (∀ r1 st1, conn (.setex (sessionKey sid) dur (enc p)) st = .ok (r1, st1) →
        conn (.setex (sessionToGroupKey sid) dur gg) st1 = .error e →
        SetSession enc dur conn sid (some gg) p st = .error e)
    ∧ (∀ r1 st1 r2 st2, conn (.setex (sessionKey sid) dur (enc p)) st = .ok (r1, st1) →
        conn (.setex (sessionToGroupKey sid) dur gg) st1 = .ok (r2, st2) →
        conn (.sadd (groupKey gg) [sessionKey sid, sessionToGroupKey sid]) st2 = .error e →
        SetSession enc dur conn sid (some gg) p st = .error e)
    ∧ (∀ r1 st1 r2 st2 r3 st3,
        conn (.setex (sessionKey sid) dur (enc p)) st = .ok (r1, st1) →
        conn (.setex (sessionToGroupKey sid) dur gg) st1 = .ok (r2, st2) →
        conn (.sadd (groupKey gg) [sessionKey sid, sessionToGroupKey sid]) st2 = .ok (r3, st3) →
        conn (.expire (groupKey gg) dur) st3 = .error e →
        SetSession enc dur conn sid (some gg) p st = .error e)
    ∧ (conn (.smembers (groupKey g)) st = .error e → InvalidateSessions conn g st = .error e)
    ∧ (∀ ms st1, conn (.smembers (groupKey g)) st = .ok (.arr ms, st1) →
        conn (.del (groupKey g :: ms)) st1 = .error e →
        InvalidateSessions conn g st = .error e)
    ∧ (conn (.del [sessionKey sid]) st = .error e → DeleteSession conn sid st = .error e)
    ∧ (∀ r1 st1 gv st2, conn (.del [sessionKey sid]) st = .ok (r1, st1) →
        conn (.get (sessionToGroupKey sid)) st1 = .ok (.bulk gv, st2) →
        conn (.del [sessionToGroupKey sid]) st2 = .error e →
        DeleteSession conn sid st = .error e)
    ∧ (∀ r1 st1 gv st2 r3 st3, conn (.del [sessionKey sid]) st = .ok (r1, st1) →
        conn (.get (sessionToGroupKey sid)) st1 = .ok (.bulk gv, st2) →
        conn (.del [sessionToGroupKey sid]) st2 = .ok (r3, st3) →
        conn (.srem (groupKey gv) [sessionKey sid, sessionToGroupKey sid]) st3 = .error e →
        DeleteSession conn sid st = .error e)
    ∧ (∀ r1 st1, conn (.del [sessionKey sid]) st = .ok (r1, st1) →
        conn (.get (sessionToGroupKey sid)) st1 = .error e →
        DeleteSession conn sid st = .ok st1) := by
  refine ⟨?_, ?_, ?_, ?_, ?_, ?_, ?_, ?_, ?_, ?_, ?_⟩
  · intro h
    simp only [Session, h, redisBulk]
  · intro h
    simp only [SetSession, h]
  · intro r1 st1 h1 h2
    simp only [SetSession, h1, h2]
  · intro r1 st1 r2 st2 h1 h2 h3
    simp only [SetSession, h1, h2, h3]
  · intro r1 st1 r2 st2 r3 st3 h1 h2 h3 h4
    simp only [SetSession, h1, h2, h3, h4]
  · intro h
    simp only [InvalidateSessions, h, redisArr]
  · intro ms st1 h1 h2
    simp only [InvalidateSessions, h1, redisArr, h2]
  · intro h
    simp only [DeleteSession, h]
  · intro r1 st1 gv st2 h1 h2 h3
    simp only [DeleteSession, h1, h2, redisBulk, h3]
  · intro r1 st1 gv st2 r3 st3 h1 h2 h3 h4
    simp only [DeleteSession, h1, h2, redisBulk, h3, h4]
  · intro r1 st1 h1 h2
    simp only [DeleteSession, h1, h2, redisBulk]

/-- C8, witness for the amended theorem: on an always-failing connection a
`Session` lookup surfaces the transport error. -/
theorem claim8_amended_witness :
    Session decX failConn sid0 emptySt = .error .transport :=
  (claim8_amended decX encX failConn .transport 1 sid0 2 ['u'] ['u'] emptySt).1 rfl

/-- C9: `DeleteSession` is idempotent and best-effort — whenever the
session-to-group pointer key is absent (already-deleted or never-existing
session included), the call returns no error, deletes only the session key,
performs no group cleanup (every other key unchanged), and running it again
returns no error and changes nothing. -/
theorem claim9 (sid : ID) (st : St) (hp : st (sessionToGroupKey sid) = none) :
    ∃ st2, DeleteSession goodConn sid st = .ok st2
      ∧ st2 (sessionKey sid) = none
      ∧ (∀ k, k ≠ sessionKey sid → st2 k = st k)
      ∧ DeleteSession goodConn sid st2 = .ok st2 := by
  refine ⟨fun k => if k ∈ [sessionKey sid] then none else st k,
    deleteSession_noPtr sid st hp, by simp, ?_, ?_⟩
  · intro k hk
    simp [hk]
  · have hp2 : (fun k => if k ∈ [sessionKey sid] then none else st k) (sessionToGroupKey sid)
        = none := by
      simp only [List.mem_singleton]
      rw [if_neg (Ne.symm (sessionKey_ne_sgKey sid sid)), hp]
    rw [deleteSession_noPtr sid (fun k => if k ∈ [sessionKey sid] then none else st k) hp2]
    congr 1
    funext k
    by_cases hk : k = sessionKey sid
    · simp [List.mem_singleton, hk]
    · simp [List.mem_singleton, hk]

/-- C9, witness: deleting a session whose pointer key is absent. -/
theorem claim9_witness :
    ∃ st2, DeleteSession goodConn sid0
        (upd emptySt (sessionKey sid0) (some (.str (encX 2), some 1))) = .ok st2
      ∧ st2 (sessionKey sid0) = none
      ∧ (∀ k, k ≠ sessionKey sid0 →
          st2 k = upd emptySt (sessionKey sid0) (some (.str (encX 2), some 1)) k)
      ∧ DeleteSession goodConn sid0 st2 = .ok st2 :=
  claim9 sid0 _ (upd_ne _ _ _ _ (Ne.symm (sessionKey_ne_sgKey sid0 sid0)))

/-- C10: a successful `SetSession` with a nil group identifier writes only
the session data key — the new database equals the old one updated at the
session key alone, so no pointer key is created, no group set is touched and
no group TTL is refreshed. -/
theorem claim10 {π : Type} (enc : π → Str) (dur : ℤ) (hdur : 0 < dur) (sid : ID) (p : π)
    (st : St) :
    SetSession enc dur goodConn sid none p st
      = .ok (upd st (sessionKey sid) (some (.str (enc p), some dur)))
    ∧ ∀ k, k ≠ sessionKey sid →
        upd st (sessionKey sid) (some (.str (enc p), some dur)) k = st k := by
  constructor
  · simp [SetSession, goodConn, not_le.mpr hdur]
  · intro k hk
    exact upd_ne _ _ _ _ hk

/-- C10, witness with the concrete codec at payload `2`. -/
theorem claim10_witness :
    SetSession encX 1 goodConn sid0 none 2 emptySt
      = .ok (upd emptySt (sessionKey sid0) (some (.str (encX 2), some 1)))
    ∧ ∀ k, k ≠ sessionKey sid0 →
        upd emptySt (sessionKey sid0) (some (.str (encX 2), some 1)) k = emptySt k :=
  claim10 encX 1 (by norm_num) sid0 2 emptySt

end OCR
